import Mathlib

/-!
Verification of the resampling and compliance-analysis engine of the
satellite thermal analysis script (Thermal_plot_code_V3.py).

The script is shallowly embedded over exact rationals: every temperature,
time stamp and margin is a rational number, a missing or non-numeric cell
is Option.none, a raised exception is modelled by an Option.none result,
and the printed report is modelled as a list of structured lines. The
definitions below follow the source text of the script; definitions whose
name ends in Spec instead follow the wording of the specification and are
compared with the source-derived ones.
-/

/-- One row of the limits file: acceptance and design bounds for one
component (columns Acceptance_Min, Acceptance_Max, Design_Min, Design_Max). -/
structure LimitRecord where
  accMin : ℚ
  accMax : ℚ
  desMin : ℚ
  desMax : ℚ
  deriving DecidableEq, Repr

/-- Hot margin of a component, source line 355:
hot_margin = limits [Acceptance_Max] - sim_max. -/
def hotMargin (lim : LimitRecord) (simMax : ℚ) : ℚ :=
  lim.accMax - simMax

/-- Cold margin of a component, source line 356:
cold_margin = sim_min - limits [Acceptance_Min]. -/
def coldMargin (lim : LimitRecord) (simMin : ℚ) : ℚ :=
  simMin - lim.accMin

/-- Compliance verdict, source line 357: PASS when hot_margin >= 0 and
cold_margin >= 0, otherwise FAIL. -/
def complianceStatus (lim : LimitRecord) (simMin simMax : ℚ) : String :=
  if 0 ≤ hotMargin lim simMax ∧ 0 ≤ coldMargin lim simMin then "PASS" else "FAIL"

/-- One cell of a report row: a plain number, a numeric range, or the
not-applicable marker that the script renders as the literal N/A text
(source line 362). -/
inductive RField where
  | num (q : ℚ)
  | rng (lo hi : ℚ)
  | na
  deriving DecidableEq, Repr

/-- One data row of the compliance report, source lines 358 to 362:
display name, simulated range, acceptance range, hot margin and status. -/
structure Row where
  display : String
  simRange : RField
  accRange : RField
  hotCol : RField
  status : String
  deriving DecidableEq, Repr

/-- Characters of an identifier up to, and not including, the first
occurrence of the two-character marker dot T, mirroring the Python
expression name.split with the dot T separator, taking element zero. -/
def takeBeforeDotT : List Char → List Char
  | [] => []
  | '.' :: 'T' :: _ => []
  | c :: rest => c :: takeBeforeDotT rest

/-- Display name of a component: everything before the dot T sensor
suffix (source lines 187 and 332). -/
def displayOf (s : String) : String :=
  String.mk (takeBeforeDotT s.data)

/-- Deck name of a component: the display name up to, and not including,
the first underscore (source lines 188 and 303). -/
def deckOf (s : String) : String :=
  String.mk ((displayOf s).data.takeWhile (fun c => c ≠ '_'))

/-- Report display text of a component: the display name with every
underscore replaced by a space (source line 360). -/
def rowName (s : String) : String :=
  String.map (fun c => if c = '_' then ' ' else c) (displayOf s)

/-- Report row for one component given the limits mapping and the
simulated full-trace extrema, source lines 353 to 362. A component
missing from the mapping gets not-applicable cells and the NO LIMITS
status instead of margins. -/
def makeRow (limitsMap : List (String × LimitRecord)) (name : String)
    (simMin simMax : ℚ) : Row :=
  match limitsMap.lookup name with
  | some lim =>
      { display := rowName name
        simRange := RField.rng simMin simMax
        accRange := RField.rng lim.accMin lim.accMax
        hotCol := RField.num (hotMargin lim simMax)
        status := complianceStatus lim simMin simMax }
  | none =>
      { display := rowName name
        simRange := RField.na
        accRange := RField.na
        hotCol := RField.na
        status := "NO LIMITS" }

/-- Insert one component into the deck mapping, mirroring the Python
dictionary update on source lines 304 to 306: a new deck name is appended
at the end, an existing deck gets the component appended to its member
list. -/
def addToDeck (gs : List (String × List String)) (d n : String) :
    List (String × List String) :=
  match gs with
  | [] => [(d, [n])]
  | (k, ms) :: rest =>
      if k = d then (k, ms ++ [n]) :: rest else (k, ms) :: addToDeck rest d n

/-- Deck grouping of the component identifiers, source lines 300 to 306.
Python dictionaries preserve insertion order, so deck names appear in
first-seen order and members in input order. -/
def deckGroups (names : List String) : List (String × List String) :=
  names.foldl (fun gs n => addToDeck gs (deckOf n) n) []

/-- Deck names in order of first appearance, written from the
specification wording for the grouping contract. -/
def firstSeen (l : List String) : List String :=
  l.foldl (fun acc d => if d ∈ acc then acc else acc ++ [d]) []

/-- Deck grouping as worded by the specification: deck names in
first-seen order, each paired with the identifiers mapping to it in
their original input order. -/
def deckGroupsSpec (names : List String) : List (String × List String) :=
  (firstSeen (names.map deckOf)).map
    (fun d => (d, names.filter (fun n => decide (deckOf n = d))))

/-- Sign of a rational, mirroring np.sign restricted to exact values. -/
def sgn (q : ℚ) : ℤ :=
  if 0 < q then 1 else if q < 0 then -1 else 0

/-- Endpoint slopes of the scipy PCHIP interpolator: the derivative at
each data point, computed exactly as scipy PchipInterpolator does it.
Two points give the secant slope at both ends (linear interpolation);
more points use the Fritsch-Carlson weighted harmonic mean at interior
points and the shape-limited one-sided three-point formula at the ends. -/
def pchipDerivs (pts : List (ℚ × ℚ)) : List ℚ :=
  let n := pts.length
  let xs := pts.map Prod.fst
  let ys := pts.map Prod.snd
  let h := fun k => xs.getD (k + 1) 0 - xs.getD k 0
  let m := fun k => (ys.getD (k + 1) 0 - ys.getD k 0) / h k
  if n < 2 then []
  else if n = 2 then [m 0, m 0]
  else
    let edge := fun (h0 h1 m0 m1 : ℚ) =>
      let d := ((2 * h0 + h1) * m0 - h0 * m1) / (h0 + h1)
      if sgn d ≠ sgn m0 then 0
      else if sgn m0 ≠ sgn m1 ∧ |d| > 3 * |m0| then 3 * m0
      else d
    let interior := fun k =>
      if sgn (m k) ≠ sgn (m (k - 1)) ∨ m k = 0 ∨ m (k - 1) = 0 then 0
      else
        let w1 := 2 * h k + h (k - 1)
        let w2 := h k + 2 * h (k - 1)
        (w1 + w2) / (w1 / m (k - 1) + w2 / m k)
    [edge (h 0) (h 1) (m 0) (m 1)]
      ++ ((List.range (n - 2)).map (fun i => interior (i + 1)))
      ++ [edge (h (n - 2)) (h (n - 3)) (m (n - 2)) (m (n - 3))]

/-- Value of the PCHIP interpolant at one query point. The containing
interval is the last one whose left endpoint is at most the query point,
clamped to the valid interval indices; a query point before the first or
after the last data point keeps the boundary cubic, which is exactly the
scipy extrapolation behaviour with its default extrapolate setting. -/
def pchipEval (pts : List (ℚ × ℚ)) (t : ℚ) : ℚ :=
  let n := pts.length
  if n < 2 then 0 else
  let xs := pts.map Prod.fst
  let ys := pts.map Prod.snd
  let ds := pchipDerivs pts
  let cnt := (xs.filter (fun x => decide (x ≤ t))).length
  let k := min (cnt - 1) (n - 2)
  let x0 := xs.getD k 0
  let x1 := xs.getD (k + 1) 0
  let y0 := ys.getD k 0
  let y1 := ys.getD (k + 1) 0
  let d0 := ds.getD k 0
  let d1 := ds.getD (k + 1) 0
  let hh := x1 - x0
  let u := (t - x0) / hh
  y0 * (2 * u ^ 3 - 3 * u ^ 2 + 1) + hh * d0 * (u ^ 3 - 2 * u ^ 2 + u)
    + y1 * (-2 * u ^ 3 + 3 * u ^ 2) + hh * d1 * (u ^ 3 - u ^ 2)

/-- The scipy call pchip_interpolate with a vector of query points: the
interpolant is evaluated at every point of the grid, source lines 206
and 339. -/
def pchip_interpolate (pts : List (ℚ × ℚ)) (grid : List ℚ) : List ℚ :=
  grid.map (pchipEval pts)

/-- Cleaning shared by both processing paths, source lines 195 to 197 and
333 to 335: coerce to numeric and drop rows whose value is invalid. A raw
cell is a time stamp paired with an optional value; none stands for a NaN
or non-numeric cell. The surviving pairs keep their original input
order. -/
def cleanSeries (rows : List (ℚ × Option ℚ)) : List (ℚ × ℚ) :=
  rows.filterMap (fun p => p.2.map (fun v => (p.1, v)))

/-- Ordering of cleaned samples by time stamp. -/
def timeLE (a b : ℚ × ℚ) : Prop :=
  a.1 ≤ b.1

instance : DecidableRel timeLE :=
  fun a b => inferInstanceAs (Decidable (a.1 ≤ b.1))

instance : IsTotal (ℚ × ℚ) timeLE :=
  ⟨fun a b => le_total a.1 b.1⟩

instance : IsTrans (ℚ × ℚ) timeLE :=
  ⟨fun _ _ _ h1 h2 => le_trans h1 h2⟩

/-- Sorting step of the individual-plot path, source line 198, modelling
the pandas sort_values call on the time column. -/
def sortByTime (l : List (ℚ × ℚ)) : List (ℚ × ℚ) :=
  List.insertionSort timeLE l

/-- Cleaned series of the individual-plot path, source lines 195 to 198:
clean, then sort by time. The deck and report path never sorts. -/
def cleanIndividual (rows : List (ℚ × Option ℚ)) : List (ℚ × ℚ) :=
  sortByTime (cleanSeries rows)

/-- Resampling as the deck and report path performs it, source lines 333
to 339: clean without sorting, then evaluate the PCHIP interpolant at
every point of the shared fine grid. -/
def resampleDeck (rows : List (ℚ × Option ℚ)) (grid : List ℚ) : List ℚ :=
  pchip_interpolate (cleanSeries rows) grid

/-- Minimum and maximum of a list of rationals; none models the numpy
exception raised on an empty reduction. -/
def minMax (l : List ℚ) : Option (ℚ × ℚ) :=
  match l with
  | [] => none
  | x :: xs => some (xs.foldl (fun p v => (min p.1 v, max p.2 v)) (x, x))

/-- Shared fine grid construction, source line 180: np.linspace from the
least to the greatest recorded time with a fixed point count. -/
def linspace (a b : ℚ) (n : ℕ) : List ℚ :=
  (List.range n).map (fun i => a + (b - a) * i / (n - 1))

/-- The shared fine time grid of a run, source lines 179 and 180: 5000
evenly spaced points spanning the recorded time column. -/
def timeFine (timeCol : List ℚ) : List ℚ :=
  linspace ((minMax timeCol).getD (0, 0)).1 ((minMax timeCol).getD (0, 0)).2 5000

/-- Skip message printed by the individual-plot path, source line 201. -/
def skipMsg (name : String) : String :=
  "  SKIPPING: Not enough valid data points for " ++ name

/-- Per-component step of the deck and report loop, source lines 329 to
362: an excluded component contributes nothing, a component with fewer
than two valid samples is passed over by the continue statement, and any
other component contributes its interpolated series and its report row,
whose simulated extrema are the minimum and maximum of the interpolated
series over the whole grid. -/
def deckStep (excluded : List String) (limitsMap : List (String × LimitRecord))
    (grid : List ℚ) (name : String) (rows : List (ℚ × Option ℚ)) :
    Option (List ℚ × Row) :=
  if name ∈ excluded then none
  else
    let cleaned := cleanSeries rows
    if cleaned.length < 2 then none
    else
      let interp := pchip_interpolate cleaned grid
      let env := (minMax interp).getD (0, 0)
      some (interp, makeRow limitsMap name env.1 env.2)

/-- Per-component step of the individual-plot path, source lines 195 to
206: the interpolated series when at least two valid samples remain, and
the list of messages printed while handling this component. -/
def individualStep (grid : List ℚ) (name : String)
    (rows : List (ℚ × Option ℚ)) : Option (List ℚ) × List String :=
  let cleaned := cleanIndividual rows
  if cleaned.length < 2 then (none, [skipMsg name])
  else (some (pchip_interpolate cleaned grid), [])

/-- All skip messages a run prints, source lines 184 to 202: the
individual-plot loop runs only when enabled, and the deck and report loop
prints nothing when it passes over a component. -/
def runSkipMessages (genIndividual : Bool)
    (components : List (String × List (ℚ × Option ℚ))) (grid : List ℚ) :
    List String :=
  if genIndividual then
    components.flatMap (fun p => (individualStep grid p.1 p.2).2)
  else []

/-- Interpolated series contributed to one deck, source lines 327 to 340:
the deck loop accumulates the interpolated series of every member that is
neither excluded nor skipped. -/
def deckContribs (excluded : List String) (limitsMap : List (String × LimitRecord))
    (grid : List ℚ) (components : List (String × List (ℚ × Option ℚ))) :
    List (List ℚ) :=
  components.filterMap (fun p => (deckStep excluded limitsMap grid p.1 p.2).map Prod.fst)

/-- Full-trace envelope of a deck, source line 378: np.min and np.max
over all accumulated series; none models the exception numpy raises on an
empty accumulation, which aborts the run. -/
def deckFullEnvelope (contribs : List (List ℚ)) : Option (ℚ × ℚ) :=
  minMax contribs.flatten

/-- Index of the first grid point at or after the window start, source
lines 412 and 438: np.where on the condition time_fine >= start, taking
the first index. The none result models the IndexError raised when no
grid point qualifies. -/
def firstIdxGE (t0 : ℚ) : List ℚ → Option ℕ
  | [] => none
  | t :: rest => if t0 ≤ t then some 0 else (firstIdxGE t0 rest).map (· + 1)

/-- Data the deck window envelope is taken over, source lines 413 and
439: every accumulated series sliced from the window start index through
the end of the grid. -/
def deckWindowData (seriesList : List (List ℚ)) (grid : List ℚ) (t0 : ℚ) :
    Option (List ℚ) :=
  (firstIdxGE t0 grid).map (fun k => (seriesList.map (fun s => s.drop k)).flatten)

/-- Deck window envelope, source lines 413 to 414 and 439 to 440: np.min
and np.max over the sliced series. -/
def deckWindowEnvelope (seriesList : List (List ℚ)) (grid : List ℚ) (t0 : ℚ) :
    Option (ℚ × ℚ) :=
  (deckWindowData seriesList grid t0).bind minMax

/-- Series values at the grid points inside the closed window, written
from the specification wording of the window envelope contract. -/
def windowValuesSpec (grid s : List ℚ) (t0 t1 : ℚ) : List ℚ :=
  ((grid.zip s).filter (fun p => decide (t0 ≤ p.1 ∧ p.1 ≤ t1))).map Prod.snd

/-- Window envelope as worded by the specification: minimum and maximum
over exactly the grid points inside the closed interval from t0 to t1. -/
def windowEnvelopeSpec (seriesList : List (List ℚ)) (grid : List ℚ)
    (t0 t1 : ℚ) : Option (ℚ × ℚ) :=
  minMax ((seriesList.map (fun s => windowValuesSpec grid s t0 t1)).flatten)

/-- Series values at the grid points at or after the window start, with
no upper cut: the window the deck slicing actually covers. -/
def windowValuesFromStart (grid s : List ℚ) (t0 : ℚ) : List ℚ :=
  ((grid.zip s).filter (fun p => decide (t0 ≤ p.1))).map Prod.snd

/-- Envelope over every grid point at or after the window start. -/
def windowEnvelopeFromStart (seriesList : List (List ℚ)) (grid : List ℚ)
    (t0 : ℚ) : Option (ℚ × ℚ) :=
  minMax ((seriesList.map (fun s => windowValuesFromStart grid s t0)).flatten)

/-- Outward rounding of an envelope to multiples of five, source lines
244 to 245, 279, 387, 414 and 440: np.floor of the minimum over five and
np.ceil of the maximum over five, both scaled back by five. -/
def autoRound (lo hi : ℚ) : ℚ × ℚ :=
  (((⌊lo / 5⌋ : ℤ) : ℚ) * 5, ((⌈hi / 5⌉ : ℤ) : ℚ) * 5)

/-- Y-axis range for the full-profile plots, source lines 236 to 247 for
the individual plot and 379 to 389 for the deck plot: a manual override
wins, else the configured default when it contains the envelope, else the
outward rounding together with a warning flag. A default configured as
auto is modelled by none and always falls through to the rounding
branch, which is also flagged. -/
def ylimFull (entity : String) (manual : List (String × (ℚ × ℚ)))
    (defRange : Option (ℚ × ℚ)) (lo hi : ℚ) : (ℚ × ℚ) × Bool :=
  match manual.lookup entity with
  | some r => (r, false)
  | none =>
      match defRange with
      | some r => if r.1 ≤ lo ∧ hi ≤ r.2 then (r, false) else (autoRound lo hi, true)
      | none => (autoRound lo hi, true)

/-- Y-axis range for the zoomed and last-orbit plots, source lines 279,
414 and 440: the outward rounding of the window envelope, applied
unconditionally with no override lookup, no default range and no
warning. -/
def ylimZoomed (lo hi : ℚ) : ℚ × ℚ :=
  autoRound lo hi

/-- Three-step range policy as worded by the specification, for
comparison with the behaviour of each window type: manual override first,
then a containing default, then outward rounding flagged as a warning. -/
def ylimPolicySpec (entity : String) (manual : List (String × (ℚ × ℚ)))
    (defRange : Option (ℚ × ℚ)) (lo hi : ℚ) : (ℚ × ℚ) × Bool :=
  match manual.lookup entity with
  | some r => (r, false)
  | none =>
      match defRange with
      | some r => if r.1 ≤ lo ∧ hi ≤ r.2 then (r, false) else (autoRound lo hi, true)
      | none => (autoRound lo hi, true)

/-- One line of the generated report: either literal text or the
structured content of one component row. -/
inductive RLine where
  | text (s : String)
  | row (r : Row)
  deriving DecidableEq, Repr

/-- Separator of 85 equal signs, source lines 310 and 312. -/
def sep85 : String :=
  String.mk (List.replicate 85 '=')

/-- Separator of a given number of dashes, source lines 317, 319 and 322. -/
def dashes (n : ℕ) : String :=
  String.mk (List.replicate n '-')

/-- Column header of a deck table, source line 320, with the fixed-width
padding abstracted away. -/
def headerLine : String :=
  "Component | Sim Range [C] | Accept Range [C] | Hot Margin [C] | Status"

/-- Report rows of one deck, source lines 329 to 362: members in deck
order, excluded and skipped members contributing nothing. -/
def deckRows (limitsMap : List (String × LimitRecord)) (excluded : List String)
    (grid : List ℚ) (components : List (String × List (ℚ × Option ℚ)))
    (members : List String) : List Row :=
  members.filterMap (fun n =>
    (deckStep excluded limitsMap grid n ((components.lookup n).getD [])).map Prod.snd)

/-- Report section of one deck, source lines 317 to 364: separators, the
deck title, the table header and the member rows, closed by a blank
line. -/
def deckSection (limitsMap : List (String × LimitRecord)) (excluded : List String)
    (grid : List ℚ) (components : List (String × List (ℚ × Option ℚ)))
    (d : String) (members : List String) : List RLine :=
  [RLine.text (dashes 85), RLine.text ("Analysis for Deck: " ++ d),
   RLine.text (dashes 85), RLine.text "", RLine.text headerLine,
   RLine.text (dashes headerLine.length)]
    ++ (deckRows limitsMap excluded grid components members).map RLine.row
    ++ [RLine.text ""]

/-- The whole report, source lines 309 to 364: the banner, the generation
time stamp taken from the wall clock at run time, a blank line, then one
section per deck in grouping order. -/
def reportLines (timeCol : List ℚ)
    (components : List (String × List (ℚ × Option ℚ)))
    (limitsMap : List (String × LimitRecord)) (excluded : List String)
    (now : String) : List RLine :=
  let grid := timeFine timeCol
  RLine.text sep85 :: RLine.text "SATELLITE THERMAL ANALYSIS REPORT" ::
  RLine.text sep85 :: RLine.text ("Generated on: " ++ now) :: RLine.text "" ::
  (deckGroups (components.map Prod.fst)).flatMap
    (fun p => deckSection limitsMap excluded grid components p.1 p.2)

theorem mem_foldl_firstSeen (l : List String) :
    ∀ (acc : List String) (x : String),
      x ∈ l.foldl (fun a d => if d ∈ a then a else a ++ [d]) acc ↔ x ∈ acc ∨ x ∈ l := by
  induction l with
  | nil => intro acc x; simp
  | cons d rest ih =>
      intro acc x
      simp only [List.foldl_cons]
      rw [ih]
      by_cases hd : d ∈ acc
      · rw [if_pos hd]
        simp only [List.mem_cons]
        constructor
        · rintro (h | h)
          · exact Or.inl h
          · exact Or.inr (Or.inr h)
        · rintro (h | rfl | h)
          · exact Or.inl h
          · exact Or.inl hd
          · exact Or.inr h
      · rw [if_neg hd]
        simp only [List.mem_append, List.mem_singleton, List.mem_cons]
        tauto

theorem mem_firstSeen (l : List String) (x : String) : x ∈ firstSeen l ↔ x ∈ l := by
  unfold firstSeen
  rw [mem_foldl_firstSeen]
  simp

theorem firstSeen_concat (l : List String) (d : String) :
    firstSeen (l ++ [d]) =
      if d ∈ firstSeen l then firstSeen l else firstSeen l ++ [d] := by
  unfold firstSeen
  rw [List.foldl_append]
  rfl

theorem nodup_firstSeen (l : List String) : (firstSeen l).Nodup := by
  induction l using List.reverseRecOn with
  | nil => simp [firstSeen]
  | append_singleton l d ih =>
      rw [firstSeen_concat]
      by_cases hd : d ∈ firstSeen l
      · rw [if_pos hd]
        exact ih
      · rw [if_neg hd]
        refine List.Nodup.append ih (List.nodup_singleton d) ?_
        intro x hx hxd
        exact hd ((List.mem_singleton.mp hxd) ▸ hx)

theorem addToDeck_of_not_mem (d n : String) :
    ∀ (gs : List (String × List String)), d ∉ gs.map Prod.fst →
      addToDeck gs d n = gs ++ [(d, [n])] := by
  intro gs
  induction gs with
  | nil => intro _; rfl
  | cons p rest ih =>
      intro h
      obtain ⟨k, ms⟩ := p
      simp only [List.map_cons, List.mem_cons] at h
      push_neg at h
      obtain ⟨hk, hrest⟩ := h
      simp only [addToDeck]
      rw [if_neg (fun he => hk he.symm), ih hrest]
      rfl

theorem addToDeck_map_of_mem (f : String → List String) (d n : String) :
    ∀ (F : List String), d ∈ F → F.Nodup →
      addToDeck (F.map (fun k => (k, f k))) d n
        = F.map (fun k => (k, if k = d then f k ++ [n] else f k)) := by
  intro F
  induction F with
  | nil => intro hd _; cases hd
  | cons a F ih =>
      intro hd hnd
      simp only [List.map_cons, addToDeck]
      by_cases ha : a = d
      · subst ha
        rw [if_pos rfl]
        congr 1
        · rw [if_pos rfl]
        · apply List.map_congr_left
          intro k hk
          have hka : k ≠ a := fun he => (List.nodup_cons.mp hnd).1 (he ▸ hk)
          rw [if_neg hka]
      · rw [if_neg ha]
        have hdF : d ∈ F := by
          rcases List.mem_cons.mp hd with h | h
          · exact absurd h.symm ha
          · exact h
        rw [ih hdF (List.nodup_cons.mp hnd).2]
        congr 1
        rw [if_neg ha]

theorem deckGroups_eq_spec (names : List String) :
    deckGroups names = deckGroupsSpec names := by
  induction names using List.reverseRecOn with
  | nil => rfl
  | append_singleton names n ih =>
      have hfold : deckGroups (names ++ [n]) = addToDeck (deckGroups names) (deckOf n) n := by
        unfold deckGroups
        rw [List.foldl_append]
        rfl
      rw [hfold, ih]
      unfold deckGroupsSpec
      rw [List.map_append, List.map_cons, List.map_nil, firstSeen_concat]
      by_cases hmem : deckOf n ∈ firstSeen (names.map deckOf)
      · rw [if_pos hmem]
        rw [addToDeck_map_of_mem (fun k => names.filter (fun m => decide (deckOf m = k)))
          (deckOf n) n _ hmem (nodup_firstSeen _)]
        apply List.map_congr_left
        intro k hk
        by_cases hkd : k = deckOf n
        · subst hkd
          rw [if_pos rfl, List.filter_append]
          simp [List.filter]
        · rw [if_neg hkd, List.filter_append]
          simp [List.filter, decide_eq_false (Ne.symm hkd)]
      · rw [if_neg hmem]
        rw [List.map_append]
        have hnm : deckOf n ∉ (List.map (fun k =>
            (k, names.filter (fun m => decide (deckOf m = k)))) (firstSeen (names.map deckOf))).map Prod.fst := by
          rw [List.map_map]
          simpa using hmem
        rw [addToDeck_of_not_mem (deckOf n) n _ hnm]
        congr 1
        · apply List.map_congr_left
          intro k hk
          have hkd : deckOf n ≠ k := fun he => hmem (he ▸ hk)
          rw [List.filter_append]
          simp [List.filter, decide_eq_false hkd]
        · have hno : names.filter (fun m => decide (deckOf m = deckOf n)) = [] := by
            rw [List.filter_eq_nil_iff]
            intro m hm
            simp only [decide_eq_true_eq]
            intro he
            exact hmem ((mem_firstSeen _ _).mpr (he ▸ List.mem_map_of_mem deckOf hm))
          simp [List.filter_append, hno, List.filter]

theorem firstIdxGE_none (t0 : ℚ) :
    ∀ (g : List ℚ), firstIdxGE t0 g = none → ∀ t ∈ g, ¬ t0 ≤ t := by
  intro g
  induction g with
  | nil => intro _ t ht; cases ht
  | cons t rest ih =>
      intro h x hx
      unfold firstIdxGE at h
      by_cases ht : t0 ≤ t
      · rw [if_pos ht] at h
        cases h
      · rw [if_neg ht] at h
        rcases List.mem_cons.mp hx with rfl | hx2
        · exact ht
        · exact ih (Option.map_eq_none'.mp h) x hx2

theorem windowValuesFromStart_all (t0 : ℚ) :
    ∀ (g s : List ℚ), (∀ x ∈ g, t0 ≤ x) → s.length = g.length →
      windowValuesFromStart g s t0 = s := by
  intro g
  induction g with
  | nil =>
      intro s _ hl
      cases s with
      | nil => rfl
      | cons v sr => simp at hl
  | cons t gr ih =>
      intro s hall hl
      cases s with
      | nil => simp at hl
      | cons v sr =>
          have hl2 : sr.length = gr.length := by simpa using hl
          have ht : decide (t0 ≤ ((t, v) : ℚ × ℚ).1) = true :=
            decide_eq_true (hall t (List.mem_cons_self _ _))
          unfold windowValuesFromStart
          simp only [List.zip_cons_cons, List.filter_cons, ht, if_true, List.map_cons]
          congr 1
          exact ih sr (fun x hx => hall x (List.mem_cons_of_mem _ hx)) hl2

theorem drop_firstIdx_eq (t0 : ℚ) :
    ∀ (g s : List ℚ) (k : ℕ), List.Sorted (· ≤ ·) g → s.length = g.length →
      firstIdxGE t0 g = some k → s.drop k = windowValuesFromStart g s t0 := by
  intro g
  induction g with
  | nil => intro s k _ _ hk; cases hk
  | cons t gr ih =>
      intro s k hs hl hk
      cases s with
      | nil => simp at hl
      | cons v sr =>
          have hl2 : sr.length = gr.length := by simpa using hl
          unfold firstIdxGE at hk
          by_cases ht : t0 ≤ t
          · rw [if_pos ht] at hk
            injection hk with hk0
            subst hk0
            have htb : decide (t0 ≤ ((t, v) : ℚ × ℚ).1) = true := decide_eq_true ht
            unfold windowValuesFromStart
            simp only [List.drop_zero, List.zip_cons_cons, List.filter_cons, htb, if_true,
              List.map_cons]
            congr 1
            exact (windowValuesFromStart_all t0 gr sr
              (fun x hx => le_trans ht (List.rel_of_sorted_cons hs x hx)) hl2).symm
          · rw [if_neg ht] at hk
            rcases Option.map_eq_some'.mp hk with ⟨k0, hk0, rfl⟩
            have htb : decide (t0 ≤ ((t, v) : ℚ × ℚ).1) = false := decide_eq_false ht
            unfold windowValuesFromStart
            simp only [List.drop_succ_cons, List.zip_cons_cons, List.filter_cons, htb,
              if_false]
            exact ih sr k0 hs.of_cons hl2 hk0

theorem deckWindowEnvelope_eq_fromStart (L : List (List ℚ)) (grid : List ℚ) (t0 : ℚ)
    (hg : List.Sorted (· ≤ ·) grid) (hl : ∀ s ∈ L, s.length = grid.length) :
    deckWindowEnvelope L grid t0 = windowEnvelopeFromStart L grid t0 := by
  unfold deckWindowEnvelope deckWindowData windowEnvelopeFromStart
  cases hidx : firstIdxGE t0 grid with
  | none =>
      have hvals : ∀ s ∈ L, windowValuesFromStart grid s t0 = [] := by
        intro s _
        unfold windowValuesFromStart
        rw [List.filter_eq_nil_iff.mpr]
        · rfl
        · intro p hp
          simp only [decide_eq_true_eq]
          exact firstIdxGE_none t0 grid hidx p.1 (List.of_mem_zip hp).1
      have hflat : (L.map (fun s => windowValuesFromStart grid s t0)).flatten = [] := by
        rw [List.flatten_eq_nil_iff]
        intro x hx
        rcases List.mem_map.mp hx with ⟨s, hs, rfl⟩
        exact hvals s hs
      rw [hflat]
      rfl
  | some k =>
      simp only [Option.map_some', Option.some_bind]
      congr 1
      congr 1
      apply List.map_congr_left
      intro s hs
      exact drop_firstIdx_eq t0 grid s k hg (hl s hs) hidx

theorem deckStep_eq_none (excluded : List String)
    (limitsMap : List (String × LimitRecord)) (grid : List ℚ) (name : String)
    (rows : List (ℚ × Option ℚ))
    (h : name ∈ excluded ∨ (cleanSeries rows).length < 2) :
    deckStep excluded limitsMap grid name rows = none := by
  by_cases he : name ∈ excluded
  · simp only [deckStep]
    rw [if_pos he]
  · rcases h with he2 | hlt
    · exact absurd he2 he
    · simp only [deckStep]
      rw [if_neg he, if_pos hlt]

/-- C1: for every component with a limit record the evaluator computes
hot_margin as acceptance max minus simulated max and cold_margin as
simulated min minus acceptance min, the verdict is PASS exactly when both
margins are nonnegative and is FAIL otherwise; for limits -10 to 50 and
simulated range -12 to 45 the hot margin is 5, the cold margin is -2 and
the verdict is FAIL. -/
theorem C1_compliance_margins_and_verdict :
    (∀ (lim : LimitRecord) (sMin sMax : ℚ),
        hotMargin lim sMax = lim.accMax - sMax ∧
        coldMargin lim sMin = sMin - lim.accMin ∧
        (complianceStatus lim sMin sMax = "PASS" ↔
          0 ≤ hotMargin lim sMax ∧ 0 ≤ coldMargin lim sMin) ∧
        (complianceStatus lim sMin sMax = "PASS" ∨
          complianceStatus lim sMin sMax = "FAIL")) ∧
    hotMargin ⟨-10, 50, -15, 55⟩ 45 = 5 ∧
    coldMargin ⟨-10, 50, -15, 55⟩ (-12) = -2 ∧
    complianceStatus ⟨-10, 50, -15, 55⟩ (-12) 45 = "FAIL" := by
  refine ⟨fun lim sMin sMax => ⟨rfl, rfl, ?_, ?_⟩, ?_, ?_, ?_⟩
  · unfold complianceStatus
    split
    · next h => simp [h]
    · next h => simp [h]
  · unfold complianceStatus
    split
    · exact Or.inl rfl
    · exact Or.inr rfl
  · norm_num [hotMargin]
  · norm_num [coldMargin]
  · norm_num [complianceStatus, hotMargin, coldMargin]

/-- C2 counterexample: a component whose raw samples live at times 1 and
2 is nevertheless given a value at the grid point 0, which lies outside
its raw time range, and that value, -10, is an extrapolation below every
raw sample value, so the full-trace minimum fed into compliance reads an
extrapolated value. This refutes the claim that grid points outside the
raw range are never silently assigned extrapolated values. -/
theorem C2_counterexample :
    resampleDeck [((1:ℚ), some (0:ℚ)), (2, some 10)] [0, 1, 2] = [-10, 0, 10] ∧
    minMax (resampleDeck [((1:ℚ), some (0:ℚ)), (2, some 10)] [0, 1, 2]) = some (-10, 10) ∧
    (0:ℚ) < 1 ∧
    (cleanSeries [((1:ℚ), some (0:ℚ)), (2, some 10)]).map Prod.snd = [(0:ℚ), 10] ∧
    (-10:ℚ) < 0 := by
  have hc : cleanSeries [((1:ℚ), some (0:ℚ)), (2, some 10)] = [(1, 0), (2, 10)] := by decide
  have h1 : resampleDeck [((1:ℚ), some (0:ℚ)), (2, some 10)] [0, 1, 2] = [-10, 0, 10] := by
    simp only [resampleDeck, hc]
    norm_num [pchip_interpolate, pchipEval, pchipDerivs, List.filter]
  refine ⟨h1, ?_, by norm_num, by decide, by norm_num⟩
  rw [h1]
  norm_num [minMax, min_def, max_def]

/-- C2 amended: the deck and report path evaluates the interpolant at
every point of the shared fine grid, including points outside the
component raw time range, which receive extrapolated values; the
interpolated series always has exactly one value per grid point. -/
theorem C2_amended_resample_covers_whole_grid (rows : List (ℚ × Option ℚ))
    (grid : List ℚ) :
    (resampleDeck rows grid).length = grid.length := by
  simp [resampleDeck, pchip_interpolate]

/-- C3: a component absent from the limits mapping gets the NO LIMITS
verdict and not-applicable cells for the simulated range, the acceptance
range and the hot margin; its status is never FAIL and its margin cell is
never the number zero. -/
theorem C3_no_limits_row (limitsMap : List (String × LimitRecord)) (name : String)
    (simMin simMax : ℚ) (h : limitsMap.lookup name = none) :
    (makeRow limitsMap name simMin simMax).status = "NO LIMITS" ∧
    (makeRow limitsMap name simMin simMax).status ≠ "FAIL" ∧
    (makeRow limitsMap name simMin simMax).hotCol = RField.na ∧
    (makeRow limitsMap name simMin simMax).hotCol ≠ RField.num 0 ∧
    (makeRow limitsMap name simMin simMax).simRange = RField.na ∧
    (makeRow limitsMap name simMin simMax).accRange = RField.na := by
  unfold makeRow
  rw [h]
  refine ⟨rfl, ?_, rfl, ?_, rfl, rfl⟩
  · show ("NO LIMITS" : String) ≠ "FAIL"
    decide
  · show RField.na ≠ RField.num 0
    decide

/-- Witness for C3 at a concrete empty limits mapping. -/
theorem C3_witness :
    ([] : List (String × LimitRecord)).lookup "PWR_Battery.T1" = none ∧
    (makeRow [] "PWR_Battery.T1" (-12) 45).status = "NO LIMITS" ∧
    (makeRow [] "PWR_Battery.T1" (-12) 45).hotCol = RField.na :=
  ⟨rfl, (C3_no_limits_row [] "PWR_Battery.T1" (-12) 45 rfl).1,
    (C3_no_limits_row [] "PWR_Battery.T1" (-12) 45 rfl).2.2.1⟩

/-- C4 counterexample: a component with a single valid sample is dropped
from the deck and report products, and with individual plots disabled the
whole run prints no skip message at all, so the skip is not recorded
anywhere, refuting the claim that the skip is always logged as a visible
condition. -/
theorem C4_counterexample :
    deckStep [] [] [0, 1] "PWR_X.T1" [((0:ℚ), some (1:ℚ))] = none ∧
    runSkipMessages false [("PWR_X.T1", [((0:ℚ), some (1:ℚ))])] [0, 1] = [] := by
  exact ⟨by decide, by decide⟩

/-- C4 amended: a component with fewer than two valid samples is excluded
from the interpolated series, the compliance evaluation and the report
rows, and the run continues past it; the skip message is printed only by
the individual-plot path, while the deck and report path and the run with
individual plots disabled record nothing. -/
theorem C4_amended_skip (excluded : List String)
    (limitsMap : List (String × LimitRecord)) (grid : List ℚ) (name : String)
    (rows : List (ℚ × Option ℚ)) (h : (cleanSeries rows).length < 2) :
    deckStep excluded limitsMap grid name rows = none ∧
    (individualStep grid name rows).1 = none ∧
    (individualStep grid name rows).2 = [skipMsg name] ∧
    (∀ comps : List (String × List (ℚ × Option ℚ)),
        runSkipMessages false comps grid = []) ∧
    (∀ rest : List (String × List (ℚ × Option ℚ)),
        deckContribs excluded limitsMap grid ((name, rows) :: rest)
          = deckContribs excluded limitsMap grid rest) := by
  have hstep : deckStep excluded limitsMap grid name rows = none :=
    deckStep_eq_none excluded limitsMap grid name rows (Or.inr h)
  have hlen : (cleanIndividual rows).length = (cleanSeries rows).length :=
    (List.perm_insertionSort timeLE (cleanSeries rows)).length_eq
  have hind : individualStep grid name rows = (none, [skipMsg name]) := by
    simp only [individualStep]
    rw [if_pos (by rw [hlen]; exact h)]
  refine ⟨hstep, by rw [hind], by rw [hind], fun comps => rfl, fun rest => ?_⟩
  unfold deckContribs
  rw [List.filterMap_cons]
  simp [hstep]

/-- Witness for C4 at a concrete one-sample component. -/
theorem C4_witness :
    (cleanSeries [((0:ℚ), some (1:ℚ))]).length < 2 ∧
    deckStep ["Other.T1"] [] [0, 1] "PWR_X.T2" [((0:ℚ), some (1:ℚ))] = none ∧
    (individualStep [0, 1] "PWR_X.T2" [((0:ℚ), some (1:ℚ))]).2 = [skipMsg "PWR_X.T2"] :=
  ⟨by decide, (C4_amended_skip ["Other.T1"] [] [0, 1] "PWR_X.T2" _ (by decide)).1,
    (C4_amended_skip ["Other.T1"] [] [0, 1] "PWR_X.T2" _ (by decide)).2.2.1⟩

/-- C5 counterexample: two runs over identical data, limits, exclusions
and configuration but started one second apart produce different report
text, because the report embeds the wall-clock generation time stamp.
This refutes byte-identical output as a function of inputs and
configuration alone. -/
theorem C5_counterexample :
    reportLines [0, 1] [] [] [] "2024-01-01 00:00:00"
      ≠ reportLines [0, 1] [] [] [] "2024-01-01 00:00:01" := by
  decide

/-- C5 amended: the report is a deterministic function of the inputs, the
configuration and the generation time stamp; any two runs over identical
inputs agree on every report line except the fourth one, which carries
the time stamp. -/
theorem C5_amended_deterministic_modulo_timestamp (timeCol : List ℚ)
    (components : List (String × List (ℚ × Option ℚ)))
    (limitsMap : List (String × LimitRecord)) (excluded : List String)
    (n1 n2 : String) (k : ℕ) (hk : k ≠ 3) :
    (reportLines timeCol components limitsMap excluded n1).get? k =
      (reportLines timeCol components limitsMap excluded n2).get? k := by
  match k, hk with
  | 0, _ => rfl
  | 1, _ => rfl
  | 2, _ => rfl
  | 3, h => exact absurd rfl h
  | (n + 4), _ => rfl

/-- Witness for C5 at a concrete line index and two time stamps. -/
theorem C5_witness :
    (0 : ℕ) ≠ 3 ∧
    (reportLines [0, 1] [] [] [] "2024-01-01 00:00:00").get? 0 =
      (reportLines [0, 1] [] [] [] "2024-01-01 00:00:02").get? 0 :=
  ⟨by decide, C5_amended_deterministic_modulo_timestamp [0, 1] [] [] []
    "2024-01-01 00:00:00" "2024-01-01 00:00:02" 0 (by decide)⟩

/-- C6 counterexample: with a manual override of 0 to 100 registered for
an entity, the zoomed window with envelope 7 to 12 still gets the
unconditionally rounded range 5 to 15 instead of the override demanded by
the three-step policy, refuting the claim that every window type shares
the policy. -/
theorem C6_counterexample :
    ylimZoomed 7 12 = (5, 15) ∧
    ylimPolicySpec "X" [("X", ((0:ℚ), (100:ℚ)))] none 7 12 = ((0, 100), false) ∧
    ylimZoomed 7 12 ≠ (ylimPolicySpec "X" [("X", ((0:ℚ), (100:ℚ)))] none 7 12).1 := by
  have h1 : (⌊(7:ℚ) / 5⌋ : ℤ) = 1 := by norm_num
  have h2 : (⌈(12:ℚ) / 5⌉ : ℤ) = 3 := by
    rw [Int.ceil_eq_iff]
    norm_num
  have hz : ylimZoomed 7 12 = (5, 15) := by
    simp only [ylimZoomed, autoRound, h1, h2]
    norm_num
  have hp : ylimPolicySpec "X" [("X", ((0:ℚ), (100:ℚ)))] none 7 12 = ((0, 100), false) := by
    simp [ylimPolicySpec, List.lookup]
  refine ⟨hz, hp, ?_⟩
  rw [hz, hp]
  simp only [ne_eq, Prod.mk.injEq, not_and]
  intro h5
  norm_num at h5

/-- C6 amended: the three-step range policy of the specification is
implemented exactly by the full-profile windows, both per component and
per deck, while the zoomed and last-orbit windows always use the outward
rounding of the window envelope, with no override lookup, no default
range and no warning. -/
theorem C6_amended_policy (entity : String) (manual : List (String × (ℚ × ℚ)))
    (defRange : Option (ℚ × ℚ)) (lo hi : ℚ) :
    ylimFull entity manual defRange lo hi = ylimPolicySpec entity manual defRange lo hi ∧
    ylimZoomed lo hi = autoRound lo hi :=
  ⟨rfl, rfl⟩

/-- C7 counterexample: for the deck zoomed window from time 1 to time 2
over the grid 0, 1, 2, 3, the series value 99 at grid time 3, outside the
window, raises the computed envelope maximum to 99 instead of 2, refuting
the claim that values after the window end never influence the
envelope. -/
theorem C7_counterexample :
    deckWindowEnvelope [[(10:ℚ), 1, 2, 99]] [0, 1, 2, 3] 1 = some (1, 99) ∧
    windowEnvelopeSpec [[(10:ℚ), 1, 2, 99]] [0, 1, 2, 3] 1 2 = some (1, 2) ∧
    deckWindowEnvelope [[(10:ℚ), 1, 2, 99]] [0, 1, 2, 3] 1
      ≠ windowEnvelopeSpec [[(10:ℚ), 1, 2, 99]] [0, 1, 2, 3] 1 2 := by
  have h1 : deckWindowEnvelope [[(10:ℚ), 1, 2, 99]] [0, 1, 2, 3] 1 = some (1, 99) := by
    norm_num [deckWindowEnvelope, deckWindowData, firstIdxGE, minMax, min_def, max_def,
      Option.bind]
  have h2 : windowEnvelopeSpec [[(10:ℚ), 1, 2, 99]] [0, 1, 2, 3] 1 2 = some (1, 2) := by
    norm_num [windowEnvelopeSpec, windowValuesSpec, minMax, min_def, max_def, List.filter]
  refine ⟨h1, h2, ?_⟩
  rw [h1, h2]
  simp only [ne_eq, Option.some.injEq, Prod.mk.injEq, not_and]
  intro h99
  norm_num

/-- C7 amended: over a sorted grid the deck window envelope equals the
minimum and maximum over exactly the grid points at or after the window
start, through the end of the trace: the window start bound is honoured,
the window end bound is ignored. -/
theorem C7_amended_envelope (L : List (List ℚ)) (grid : List ℚ) (t0 : ℚ)
    (hg : List.Sorted (· ≤ ·) grid) (hl : ∀ s ∈ L, s.length = grid.length) :
    deckWindowEnvelope L grid t0 = windowEnvelopeFromStart L grid t0 :=
  deckWindowEnvelope_eq_fromStart L grid t0 hg hl

/-- Witness for C7 at a concrete sorted grid and one series. -/
theorem C7_witness :
    List.Sorted (· ≤ ·) [(0:ℚ), 1] ∧
    deckWindowEnvelope [[(5:ℚ), 6]] [0, 1] 1 = windowEnvelopeFromStart [[(5:ℚ), 6]] [0, 1] 1 :=
  ⟨by decide,
    C7_amended_envelope [[(5:ℚ), 6]] [0, 1] 1 (by decide) (by decide)⟩

/-- C8 counterexample: with samples recorded at times 2 then 1, the deck
and report path hands the cleaned pairs to the interpolation in their
original, unsorted order, while the individual path sorts them; this
refutes the claim that every interpolating path sorts by ascending
time. -/
theorem C8_counterexample :
    cleanSeries [((2:ℚ), some (5:ℚ)), (1, some 3)] = [(2, 5), (1, 3)] ∧
    cleanIndividual [((2:ℚ), some (5:ℚ)), (1, some 3)] = [(1, 3), (2, 5)] ∧
    cleanSeries [((2:ℚ), some (5:ℚ)), (1, some 3)]
      ≠ cleanIndividual [((2:ℚ), some (5:ℚ)), (1, some 3)] ∧
    ¬ List.Sorted timeLE (cleanSeries [((2:ℚ), some (5:ℚ)), (1, some 3)]) :=
  ⟨by decide, by decide, by decide, by decide⟩

/-- C8 amended: only the individual-plot path sorts the cleaned samples:
its cleaned series is ascending in time and is a permutation of the
cleaned series that the deck and report path passes to the interpolation
in original input order. -/
theorem C8_amended_sorting (rows : List (ℚ × Option ℚ)) :
    List.Sorted timeLE (cleanIndividual rows) ∧
    (cleanIndividual rows).Perm (cleanSeries rows) :=
  ⟨List.sorted_insertionSort timeLE (cleanSeries rows),
    List.perm_insertionSort timeLE (cleanSeries rows)⟩

/-- C9: the deck grouping strips the sensor suffix, takes the identifier
text before the first underscore as the deck name, and groups identifiers
preserving first-seen deck order and first-seen member order; the three
identifier example of the specification yields exactly the stated
grouping. -/
theorem C9_deck_grouping :
    (∀ names : List String, deckGroups names = deckGroupsSpec names) ∧
    deckGroups ["PWR_Battery.T1", "PWR_Heater.T2", "THM_Radiator.T1"] =
      [("PWR", ["PWR_Battery.T1", "PWR_Heater.T2"]), ("THM", ["THM_Radiator.T1"])] :=
  ⟨deckGroups_eq_spec, by decide⟩

/-- C10: a deck all of whose members are excluded or lack two valid
samples accumulates no interpolated series, and its envelope computation
reduces an empty collection, modelled as the none result that stands for
the numpy exception aborting the run. -/
theorem C10_empty_deck_aborts (excluded : List String)
    (limitsMap : List (String × LimitRecord)) (grid : List ℚ)
    (components : List (String × List (ℚ × Option ℚ)))
    (h : ∀ p ∈ components, p.1 ∈ excluded ∨ (cleanSeries p.2).length < 2) :
    deckContribs excluded limitsMap grid components = [] ∧
    deckFullEnvelope (deckContribs excluded limitsMap grid components) = none := by
  have hnil : deckContribs excluded limitsMap grid components = [] := by
    unfold deckContribs
    rw [List.filterMap_eq_nil_iff]
    intro p hp
    rw [deckStep_eq_none excluded limitsMap grid p.1 p.2 (h p hp)]
    rfl
  exact ⟨hnil, by rw [hnil]; rfl⟩

/-- Witness for C10 at a concrete deck with one excluded and one skipped
member. -/
theorem C10_witness :
    ("A_X.T1" ∈ ["B_Y.T1"] ∨ (cleanSeries [((0:ℚ), some (1:ℚ))]).length < 2) ∧
    deckContribs ["B_Y.T1"] [] [0, 1]
      [("A_X.T1", [((0:ℚ), some (1:ℚ))]),
        ("B_Y.T1", [((0:ℚ), some (1:ℚ)), (1, some 2)])] = [] ∧
    deckFullEnvelope (deckContribs ["B_Y.T1"] [] [0, 1]
      [("A_X.T1", [((0:ℚ), some (1:ℚ))]),
        ("B_Y.T1", [((0:ℚ), some (1:ℚ)), (1, some 2)])]) = none :=
  ⟨by decide, (C10_empty_deck_aborts ["B_Y.T1"] [] [0, 1] _ (by decide)).1,
    (C10_empty_deck_aborts ["B_Y.T1"] [] [0, 1] _ (by decide)).2⟩
